import Mathlib

set_option maxRecDepth 4000

/-!
Shallow embedding of the STM8 LIN checksum library (`lin_checksum.c`,
`lin_checksum.h`) and verification of its specification.

Bytes are modelled as `Nat` values assumed `< 256` where relevant; data
buffers are `List Nat` together with an explicit `data_len`, mirroring the
C interface `(const void *data, const uint8_t data_len)`.  The C contract
requires `data_len` to be at most the number of bytes available; the model
reads `data.take data_len`.
-/

namespace LinChecksum

/-- One iteration of the assembly loop in `lin_calculate_checksum_intermediate`:
`adc a, (x)` adds the next byte and the carry flag to the accumulator.  The
state is `(accumulator, carry flag)`. -/
def adcStep (s : Nat × Nat) (b : Nat) : Nat × Nat :=
  ((s.1 + b + s.2) % 256, (s.1 + b + s.2) / 256)

/-- `lin_calculate_checksum_intermediate(cksum_init, data, data_len)`: bails
out returning `cksum_init` when `data_len` is zero; otherwise clears the
carry, runs the `adc` loop over the `data_len` bytes read from the buffer,
and finally executes `adc a, #0` to fold in any leftover carry. -/
def lin_calculate_checksum_intermediate (cksum_init : Nat) (data : List Nat)
    (data_len : Nat) : Nat :=
  if data_len = 0 then cksum_init
  else
    let s := (data.take data_len).foldl adcStep (cksum_init, 0)
    (s.1 + s.2) % 256

/-- `lin_calculate_checksum_classic(data, data_len)`: bitwise NOT (on a value
below 256, `255 - x`) of the intermediate checksum seeded with 0. -/
def lin_calculate_checksum_classic (data : List Nat) (data_len : Nat) : Nat :=
  255 - lin_calculate_checksum_intermediate 0 data data_len

/-- `lin_calculate_checksum_enhanced(pid, data, data_len)`: bitwise NOT of the
intermediate checksum seeded with `pid`. -/
def lin_calculate_checksum_enhanced (pid : Nat) (data : List Nat)
    (data_len : Nat) : Nat :=
  255 - lin_calculate_checksum_intermediate pid data data_len

/-- `lin_verify_checksum_classic(cksum, data, data_len)`: recomputes the
intermediate checksum seeded with 0, adds the candidate checksum and compares
with `0xFF`. -/
def lin_verify_checksum_classic (cksum : Nat) (data : List Nat)
    (data_len : Nat) : Bool :=
  cksum + lin_calculate_checksum_intermediate 0 data data_len == 0xFF

/-- `lin_verify_checksum_enhanced(cksum, pid, data, data_len)`: recomputes the
intermediate checksum seeded with `pid`, adds the candidate checksum and
compares with `0xFF`. -/
def lin_verify_checksum_enhanced (cksum pid : Nat) (data : List Nat)
    (data_len : Nat) : Bool :=
  cksum + lin_calculate_checksum_intermediate pid data data_len == 0xFF

/-- The 64-entry lookup table `lut` from `lin_get_protected_id`. -/
def lut : List Nat :=
  [0x80, 0xC1, 0x42, 0x03, 0xC4, 0x85, 0x06, 0x47,
   0x08, 0x49, 0xCA, 0x8B, 0x4C, 0x0D, 0x8E, 0xCF,
   0x50, 0x11, 0x92, 0xD3, 0x14, 0x55, 0xD6, 0x97,
   0xD8, 0x99, 0x1A, 0x5B, 0x9C, 0xDD, 0x5E, 0x1F,
   0x20, 0x61, 0xE2, 0xA3, 0x64, 0x25, 0xA6, 0xE7,
   0xA8, 0xE9, 0x6A, 0x2B, 0xEC, 0xAD, 0x2E, 0x6F,
   0xF0, 0xB1, 0x32, 0x73, 0xB4, 0xF5, 0x76, 0x37,
   0x78, 0x39, 0xBA, 0xFB, 0x3C, 0x7D, 0xFE, 0xBF]

/-- `lin_get_protected_id(fid)`: `return lut[fid & 0x3F];`. -/
def lin_get_protected_id (fid : Nat) : Nat :=
  lut.getD (fid &&& 0x3F) 0

/-- Modelled from the spec: `lin_verify_protected_id` is declared in the
README and described in the spec, but its implementation file is not among
the sources.  Per the spec it extracts `fid = pid & 0x3F`, recomputes the
expected protected ID via the encoder, and compares the top two bits of the
expectation against the top two bits of `pid`; the extracted FID is returned
in all cases together with the parity-validity flag. -/
def lin_verify_protected_id (pid : Nat) : Nat × Bool :=
  let fid := pid &&& 0x3F
  (fid, (lin_get_protected_id fid &&& 0xC0) == (pid &&& 0xC0))

/-- Spec-side end-around-carry addition: 8-bit modular addition where an
overflow adds 1 back into the accumulator, exactly once per byte. -/
def eacAdd (a b : Nat) : Nat :=
  (a + b) % 256 + (if 256 ≤ a + b then 1 else 0)

/-- Spec-side `accumulate(seed, data)`: fold `eacAdd` over the byte list,
returning the seed unchanged on an empty list. -/
def accumulate (seed : Nat) (data : List Nat) : Nat :=
  data.foldl eacAdd seed

/-- Spec-side parity construction of a protected identifier: the low 6 bits
hold the (truncated) FID, bit 6 is the XOR of FID bits 0, 1, 2, 4 and bit 7
is the inverted XOR of FID bits 1, 3, 4, 5. -/
def parityEncode (fid : Nat) : Nat :=
  let f := fid &&& 0x3F
  let p6 := (f.testBit 0).xor ((f.testBit 1).xor ((f.testBit 2).xor (f.testBit 4)))
  let p7 := !((f.testBit 1).xor ((f.testBit 3).xor ((f.testBit 4).xor (f.testBit 5))))
  f ||| ((if p6 then 0x40 else 0) ||| (if p7 then 0x80 else 0))

/-! ### Helper lemmas -/

/-- The intermediate checksum stays below 256 whenever the seed does. -/
theorem intermediate_lt_256 (seed : Nat) (data : List Nat) (n : Nat)
    (h : seed < 256) : lin_calculate_checksum_intermediate seed data n < 256 := by
  unfold lin_calculate_checksum_intermediate
  split
  · exact h
  · exact Nat.mod_lt _ (by omega)

/-- The deferred-carry `adc` fold agrees with the immediate end-around-carry
fold: the register-plus-carry total tracks `eacAdd` and stays at most 255. -/
theorem foldl_adcStep_eq_eacAdd (data : List Nat) (hd : ∀ b ∈ data, b < 256) :
    ∀ a c : Nat, a + c ≤ 255 →
      (data.foldl adcStep (a, c)).1 + (data.foldl adcStep (a, c)).2 =
          data.foldl eacAdd (a + c) ∧
        (data.foldl adcStep (a, c)).1 + (data.foldl adcStep (a, c)).2 ≤ 255 := by
  induction data with
  | nil => exact fun a c h => ⟨rfl, h⟩
  | cons b t ih =>
    intro a c h
    have hb : b < 256 := hd b (List.mem_cons_self b t)
    have ht : ∀ x ∈ t, x < 256 := fun x hx => hd x (List.mem_cons_of_mem b hx)
    have h1 : (a + b + c) % 256 + (a + b + c) / 256 = eacAdd (a + c) b := by
      unfold eacAdd
      split <;> omega
    have h2 : (a + b + c) % 256 + (a + b + c) / 256 ≤ 255 := by omega
    have hstep : adcStep (a, c) b = ((a + b + c) % 256, (a + b + c) / 256) := rfl
    simp only [List.foldl_cons, hstep]
    have := ih ht ((a + b + c) % 256) ((a + b + c) / 256) h2
    rwa [h1] at this

/-- The intermediate checksum is the spec-side end-around-carry accumulation
of the bytes actually read. -/
theorem intermediate_eq_accumulate (seed : Nat) (data : List Nat) (n : Nat)
    (hs : seed < 256) (hd : ∀ b ∈ data, b < 256) :
    lin_calculate_checksum_intermediate seed data n =
      accumulate seed (data.take n) := by
  unfold lin_calculate_checksum_intermediate accumulate
  split
  · rename_i h0
    subst h0
    simp
  · have htake : ∀ b ∈ data.take n, b < 256 :=
      fun b hb => hd b (List.take_subset n data hb)
    have h := foldl_adcStep_eq_eacAdd (data.take n) htake seed 0 (by omega)
    rw [Nat.mod_eq_of_lt (by omega)]
    simpa using h.1

/-- Bitwise NOT of an 8-bit value coincides with subtraction from 255. -/
theorem sub_255_eq_xor (v : Nat) (h : v < 256) : 255 - v = Nat.xor v 255 := by
  revert v
  decide

/-! ### Claims -/

/-- C1: the shared core routine computes, for every 8-bit seed and every byte
list of length 0-255, the end-around-carry sum `accumulate`; for a zero-length
list the seed is returned unchanged (covered by `accumulate` of the empty
list), and the classic and enhanced checksums are the bitwise NOT of
`accumulate` seeded with 0 and with the PID respectively. -/
theorem C1_core_is_end_around_carry (seed pid : Nat) (data : List Nat) (n : Nat)
    (hs : seed < 256) (hp : pid < 256) (hd : ∀ b ∈ data, b < 256)
    (_hn : n ≤ data.length) (_hn255 : n ≤ 255) :
    lin_calculate_checksum_intermediate seed data n = accumulate seed (data.take n) ∧
    lin_calculate_checksum_classic data n = Nat.xor (accumulate 0 (data.take n)) 255 ∧
    lin_calculate_checksum_enhanced pid data n = Nat.xor (accumulate pid (data.take n)) 255 := by
  have e0 := intermediate_eq_accumulate 0 data n (by omega) hd
  have ep := intermediate_eq_accumulate pid data n hp hd
  have l0 := intermediate_lt_256 0 data n (by omega)
  have lp := intermediate_lt_256 pid data n hp
  refine ⟨intermediate_eq_accumulate seed data n hs hd, ?_, ?_⟩
  · unfold lin_calculate_checksum_classic
    rw [← e0]
    exact sub_255_eq_xor _ l0
  · unfold lin_calculate_checksum_enhanced
    rw [← ep]
    exact sub_255_eq_xor _ lp

/-- Witness for C1 at the LIN 2.2A worked example. -/
theorem C1_core_is_end_around_carry_witness :
    lin_calculate_checksum_intermediate 0x55 [0x4A, 0x55, 0x93, 0xE5] 4 =
        accumulate 0x55 ([0x4A, 0x55, 0x93, 0xE5].take 4) ∧
      lin_calculate_checksum_classic [0x4A, 0x55, 0x93, 0xE5] 4 =
        Nat.xor (accumulate 0 ([0x4A, 0x55, 0x93, 0xE5].take 4)) 255 ∧
      lin_calculate_checksum_enhanced 0xBF [0x4A, 0x55, 0x93, 0xE5] 4 =
        Nat.xor (accumulate 0xBF ([0x4A, 0x55, 0x93, 0xE5].take 4)) 255 :=
  C1_core_is_end_around_carry 0x55 0xBF [0x4A, 0x55, 0x93, 0xE5] 4
    (by decide) (by decide) (by decide) (by decide) (by decide)

/-- C2: verifying a freshly calculated checksum succeeds, in both classic and
enhanced modes, for every byte buffer and every length within the buffer. -/
theorem C2_calculate_verify_roundtrip (pid : Nat) (data : List Nat) (n : Nat)
    (hp : pid < 256) (_hd : ∀ b ∈ data, b < 256) (_hn : n ≤ data.length) :
    lin_verify_checksum_classic (lin_calculate_checksum_classic data n) data n = true ∧
    lin_verify_checksum_enhanced (lin_calculate_checksum_enhanced pid data n) pid data n = true := by
  have l0 := intermediate_lt_256 0 data n (by omega)
  have lp := intermediate_lt_256 pid data n hp
  unfold lin_verify_checksum_classic lin_verify_checksum_enhanced
    lin_calculate_checksum_classic lin_calculate_checksum_enhanced
  refine ⟨?_, ?_⟩ <;> simp only [beq_iff_eq] <;> omega

/-- Witness for C2 at the LIN 2.2A worked example. -/
theorem C2_calculate_verify_roundtrip_witness :
    lin_verify_checksum_classic
        (lin_calculate_checksum_classic [0x4A, 0x55, 0x93, 0xE5] 4)
        [0x4A, 0x55, 0x93, 0xE5] 4 = true ∧
      lin_verify_checksum_enhanced
        (lin_calculate_checksum_enhanced 0xBF [0x4A, 0x55, 0x93, 0xE5] 4)
        0xBF [0x4A, 0x55, 0x93, 0xE5] 4 = true :=
  C2_calculate_verify_roundtrip 0xBF [0x4A, 0x55, 0x93, 0xE5] 4
    (by decide) (by decide) (by decide)

/-- C3: classic verification checks that the candidate checksum plus
`accumulate(0, data)` equals 0xFF, and (classic and enhanced) verification
succeeds exactly on the freshly calculated checksum. -/
theorem C3_verify_criterion (c pid : Nat) (data : List Nat) (n : Nat)
    (hc : c < 256) (hp : pid < 256) (hd : ∀ b ∈ data, b < 256) :
    lin_verify_checksum_classic c data n = (c + accumulate 0 (data.take n) == 0xFF) ∧
    (lin_verify_checksum_classic c data n = true ↔
      c = lin_calculate_checksum_classic data n) ∧
    (lin_verify_checksum_enhanced c pid data n = true ↔
      c = lin_calculate_checksum_enhanced pid data n) := by
  have e0 := intermediate_eq_accumulate 0 data n (by omega) hd
  have l0 := intermediate_lt_256 0 data n (by omega)
  have lp := intermediate_lt_256 pid data n hp
  refine ⟨?_, ?_, ?_⟩
  · unfold lin_verify_checksum_classic
    rw [e0]
  · unfold lin_verify_checksum_classic lin_calculate_checksum_classic
    simp only [beq_iff_eq]
    omega
  · unfold lin_verify_checksum_enhanced lin_calculate_checksum_enhanced
    simp only [beq_iff_eq]
    omega

/-- Witness for C3 at the LIN 2.2A worked example. -/
theorem C3_verify_criterion_witness :
    (lin_verify_checksum_classic 0xE6 [0x4A, 0x55, 0x93, 0xE5] 4 =
        (0xE6 + accumulate 0 ([0x4A, 0x55, 0x93, 0xE5].take 4) == 0xFF)) ∧
      (lin_verify_checksum_classic 0xE6 [0x4A, 0x55, 0x93, 0xE5] 4 = true ↔
        0xE6 = lin_calculate_checksum_classic [0x4A, 0x55, 0x93, 0xE5] 4) ∧
      (lin_verify_checksum_enhanced 0xE6 0xBF [0x4A, 0x55, 0x93, 0xE5] 4 = true ↔
        0xE6 = lin_calculate_checksum_enhanced 0xBF [0x4A, 0x55, 0x93, 0xE5] 4) :=
  C3_verify_criterion 0xE6 0xBF [0x4A, 0x55, 0x93, 0xE5] 4
    (by decide) (by decide) (by decide)

/-- C4: for every 8-bit FID, the table lookup agrees with the LIN parity
scheme: low 6 bits are the truncated FID, bit 6 is the XOR of FID bits
0, 1, 2, 4 and bit 7 the inverted XOR of FID bits 1, 3, 4, 5; in particular
every one of the 64 table entries matches the parity definition. -/
theorem C4_parity_table (fid : Nat) (h : fid < 256) :
    lin_get_protected_id fid = parityEncode fid := by
  revert fid
  decide

/-- Witness for C4. -/
theorem C4_parity_table_witness :
    lin_get_protected_id 0x2D = parityEncode 0x2D :=
  C4_parity_table 0x2D (by decide)

/-- C5: golden vectors from the LIN 2.2A specification worked example and for
the protected-ID encoder. -/
theorem C5_golden_vectors :
    lin_calculate_checksum_classic [0x4A, 0x55, 0x93, 0xE5] 4 = 0xE6 ∧
    lin_calculate_checksum_enhanced 0xBF [0x4A, 0x55, 0x93, 0xE5] 4 = 0x27 ∧
    lin_get_protected_id 0x00 = 0x80 ∧
    lin_get_protected_id 0x3F = 0xBF ∧
    lin_get_protected_id 0x10 = 0x50 := by
  decide

/-- C6: the protected-ID encoder only looks at the low 6 bits of its input,
silently reducing out-of-range frame identifiers modulo 64; in particular
0x40 and 0x00 both encode to 0x80 and 0xFF and 0x3F both encode to 0xBF. -/
theorem C6_modulo_64 (fid : Nat) (h : fid < 256) :
    lin_get_protected_id fid = lin_get_protected_id (fid &&& 0x3F) ∧
    lin_get_protected_id 0x40 = 0x80 ∧
    lin_get_protected_id 0x00 = 0x80 ∧
    lin_get_protected_id 0xFF = 0xBF ∧
    lin_get_protected_id 0x3F = 0xBF := by
  revert fid
  decide

/-- Witness for C6 at an out-of-range frame identifier. -/
theorem C6_modulo_64_witness :
    lin_get_protected_id 0x41 = lin_get_protected_id (0x41 &&& 0x3F) ∧
      lin_get_protected_id 0x40 = 0x80 ∧
      lin_get_protected_id 0x00 = 0x80 ∧
      lin_get_protected_id 0xFF = 0xBF ∧
      lin_get_protected_id 0x3F = 0xBF :=
  C6_modulo_64 0x41 (by decide)

/-- The `adc` loop over an all-zero buffer keeps accumulator and carry zero. -/
theorem replicate_zero_foldl (n : Nat) :
    (List.replicate n 0).foldl adcStep ((0, 0) : Nat × Nat) = (0, 0) := by
  induction n with
  | zero => rfl
  | succ k ih =>
    rw [List.replicate_succ, List.foldl_cons]
    exact ih

/-- The `adc` loop over a non-empty all-0xFF buffer ends with register and carry
totalling 255. -/
theorem replicate_ff_foldl (n : Nat) :
    (List.replicate (n + 1) 0xFF).foldl adcStep ((0, 0) : Nat × Nat) = (255, 0) ∨
    (List.replicate (n + 1) 0xFF).foldl adcStep ((0, 0) : Nat × Nat) = (254, 1) := by
  induction n with
  | zero => left; rfl
  | succ k ih =>
    rw [List.replicate_succ', List.foldl_append]
    rcases ih with h | h <;> rw [h] <;> right <;> rfl

/-- C7 counterexample: a zero-length all-0xFF buffer yields 0xFF, not 0x00:
the claim's all-0xFF case fails at n = 0. -/
theorem C7_counterexample :
    ¬ (lin_calculate_checksum_classic (List.replicate 0 0xFF) 0 = 0x00) := by
  decide

/-- C7 (amended): for every length n in 1-255, the classic checksum of an
all-zero buffer of length n is 0xFF and of an all-0xFF buffer of length n is
0x00; and for every buffer d, the classic checksum with length 0 is 0xFF (so
the all-zero case extends to n = 0, while the all-0xFF case does not). -/
theorem C7_constant_cases (n : Nat) (h1 : 1 ≤ n) (h2 : n ≤ 255) (d : List Nat) :
    lin_calculate_checksum_classic (List.replicate n 0) n = 0xFF ∧
    lin_calculate_checksum_classic (List.replicate n 0xFF) n = 0x00 ∧
    lin_calculate_checksum_classic d 0 = 0xFF := by
  obtain ⟨k, rfl⟩ : ∃ k, n = k + 1 := ⟨n - 1, by omega⟩
  refine ⟨?_, ?_, rfl⟩
  · unfold lin_calculate_checksum_classic lin_calculate_checksum_intermediate
    rw [List.take_replicate, Nat.min_self]
    rw [if_neg (by omega)]
    rw [replicate_zero_foldl]
    rfl
  · unfold lin_calculate_checksum_classic lin_calculate_checksum_intermediate
    rw [List.take_replicate, Nat.min_self]
    rw [if_neg (by omega)]
    rcases replicate_ff_foldl k with h | h <;> rw [h] <;> rfl

/-- Witness for C7 (amended) at length 8. -/
theorem C7_constant_cases_witness :
    lin_calculate_checksum_classic (List.replicate 8 0) 8 = 0xFF ∧
      lin_calculate_checksum_classic (List.replicate 8 0xFF) 8 = 0x00 ∧
      lin_calculate_checksum_classic [0x91, 0xFA] 0 = 0xFF :=
  C7_constant_cases 8 (by decide) (by decide) [0x91, 0xFA]

/-- The register-plus-carry total of the `adc` fold is congruent modulo 255 to
the seed plus the sum of the bytes. -/
theorem foldl_adcStep_mod255 (data : List Nat) :
    ∀ a c : Nat,
      ((data.foldl adcStep (a, c)).1 + (data.foldl adcStep (a, c)).2) % 255 =
        (a + c + data.sum) % 255 := by
  induction data with
  | nil => intro a c; simp
  | cons b t ih =>
    intro a c
    simp only [List.foldl_cons, List.sum_cons]
    rw [show adcStep (a, c) b = ((a + b + c) % 256, (a + b + c) / 256) from rfl]
    rw [ih]
    omega

/-- Replacing the element at a position changes a list's sum by the
difference between new and old values. -/
theorem sum_set_add (l : List Nat) :
    ∀ i v, i < l.length → (l.set i v).sum + l.getD i 0 = l.sum + v := by
  induction l with
  | nil =>
    intro i v h
    simp at h
  | cons b t ih =>
    intro i v h
    cases i with
    | zero =>
      simp only [List.set_cons_zero, List.sum_cons, List.getD_cons_zero]
      omega
    | succ j =>
      have hj : j < t.length := by simpa using h
      simp only [List.set_cons_succ, List.sum_cons, List.getD_cons_succ]
      have := ih j v hj
      omega

/-- Taking a prefix long enough to contain an index preserves `getD` there. -/
theorem getD_take (data : List Nat) (n i : Nat) (h1 : i < n)
    (h2 : i < data.length) : (data.take n).getD i 0 = data.getD i 0 := by
  have hl : i < (data.take n).length := by
    rw [List.length_take]
    omega
  rw [List.getD_eq_getElem _ _ hl, List.getD_eq_getElem _ _ h2]
  exact List.getElem_take data

/-- Changing a single byte within the checksummed range to a value that is
not congruent to the old byte modulo 255 changes the intermediate checksum. -/
theorem intermediate_set_ne (seed : Nat) (data : List Nat) (n i v : Nat)
    (hs : seed < 256) (hd : ∀ b ∈ data, b < 256) (hn : n ≤ data.length)
    (hi : i < n) (hv : v < 256) (hmod : v % 255 ≠ data.getD i 0 % 255) :
    lin_calculate_checksum_intermediate seed (data.set i v) n ≠
      lin_calculate_checksum_intermediate seed data n := by
  have hn0 : ¬ (n = 0) := by omega
  unfold lin_calculate_checksum_intermediate
  rw [if_neg hn0, if_neg hn0]
  have hset : (data.set i v).take n = (data.take n).set i v := List.set_take
  rw [hset]
  have hi_e : i < (data.take n).length := by
    rw [List.length_take]
    omega
  have hbe : ∀ b ∈ data.take n, b < 256 := fun b hb => hd b (List.take_subset n data hb)
  have hbe' : ∀ b ∈ (data.take n).set i v, b < 256 := by
    intro b hb
    rcases List.mem_or_eq_of_mem_set hb with hmem | rfl
    · exact hbe b hmem
    · exact hv
  have hgd_lt : data.getD i 0 < 256 := by
    rw [List.getD_eq_getElem _ _ (by omega)]
    exact hd _ (List.getElem_mem (by omega))
  have f1 := foldl_adcStep_eq_eacAdd (data.take n) hbe seed 0 (by omega)
  have f2 := foldl_adcStep_eq_eacAdd ((data.take n).set i v) hbe' seed 0 (by omega)
  have m1 := foldl_adcStep_mod255 (data.take n) seed 0
  have m2 := foldl_adcStep_mod255 ((data.take n).set i v) seed 0
  have hsum := sum_set_add (data.take n) i v hi_e
  have hgd : (data.take n).getD i 0 = data.getD i 0 := getD_take data n i hi (by omega)
  rw [Nat.mod_eq_of_lt (by omega), Nat.mod_eq_of_lt (by omega)]
  omega

/-- C8 counterexample: with the successful classic verification of
checksum 0xFE over [0x01, 0x00], changing the data byte at index 1 from 0x00
to the different value 0xFF leaves verification succeeding, so the claim's
single-data-byte error-detection property fails as stated. -/
theorem C8_counterexample :
    lin_verify_checksum_classic 0xFE [0x01, 0x00] 2 = true ∧
    lin_verify_checksum_classic 0xFE ([0x01, 0x00].set 1 0xFF) 2 = true ∧
    (0xFF : Nat) ≠ [0x01, 0x00].getD 1 0 := by
  decide

/-- C8 (amended): after a successful classic or enhanced verification,
changing the checksum byte to any different 8-bit value makes verification
fail, and changing a single data byte within the checksummed range to a value
not congruent to the old byte modulo 255 (this excludes only the undetectable
0x00 to 0xFF substitution and its reverse) makes verification fail. -/
theorem C8_error_detection (data : List Nat) (n i v c cE c' cE' pid : Nat)
    (hd : ∀ b ∈ data, b < 256) (hn : n ≤ data.length) (hp : pid < 256)
    (hi : i < n) (hv : v < 256) (hmod : v % 255 ≠ data.getD i 0 % 255)
    (hvc : lin_verify_checksum_classic c data n = true)
    (hve : lin_verify_checksum_enhanced cE pid data n = true)
    (_hc : c' < 256) (hcne : c' ≠ c) (_hE : cE' < 256) (hEne : cE' ≠ cE) :
    lin_verify_checksum_classic c (data.set i v) n = false ∧
    lin_verify_checksum_enhanced cE pid (data.set i v) n = false ∧
    lin_verify_checksum_classic c' data n = false ∧
    lin_verify_checksum_enhanced cE' pid data n = false := by
  have d0 := intermediate_set_ne 0 data n i v (by omega) hd hn hi hv hmod
  have dp := intermediate_set_ne pid data n i v hp hd hn hi hv hmod
  unfold lin_verify_checksum_classic at hvc ⊢
  unfold lin_verify_checksum_enhanced at hve ⊢
  simp only [beq_iff_eq] at hvc hve
  simp only [beq_eq_false_iff_ne, ne_eq]
  refine ⟨?_, ?_, ?_, ?_⟩ <;> omega

/-- Witness for C8 (amended): buffer [0x91, 0xFA], classic checksum 0x73 and
enhanced checksum 0xB3 under PID 0xBF, mutating byte 0 to 0x12 and the
checksums to 0x00. -/
theorem C8_error_detection_witness :
    lin_verify_checksum_classic 0x73 ([0x91, 0xFA].set 0 0x12) 2 = false ∧
      lin_verify_checksum_enhanced 0xB3 0xBF ([0x91, 0xFA].set 0 0x12) 2 = false ∧
      lin_verify_checksum_classic 0x00 [0x91, 0xFA] 2 = false ∧
      lin_verify_checksum_enhanced 0x00 0xBF [0x91, 0xFA] 2 = false :=
  C8_error_detection [0x91, 0xFA] 2 0 0x12 0x73 0xB3 0x00 0x00 0xBF
    (by decide) (by decide) (by decide) (by decide) (by decide) (by decide)
    (by decide) (by decide) (by decide) (by decide) (by decide) (by decide)

/-- C9: the decoder always returns the low 6 bits of the protected ID, its
flag is true exactly when the top two bits of the input match the top two
bits of the re-encoded FID, and decoding an encoded FID recovers the
truncated FID with a true flag. -/
theorem C9_decode_roundtrip (x : Nat) (h : x < 256) :
    (lin_verify_protected_id x).1 = x &&& 0x3F ∧
    ((lin_verify_protected_id x).2 = true ↔
      lin_get_protected_id (x &&& 0x3F) &&& 0xC0 = x &&& 0xC0) ∧
    lin_verify_protected_id (lin_get_protected_id x) = (x &&& 0x3F, true) := by
  revert x
  decide

/-- Witness for C9. -/
theorem C9_decode_roundtrip_witness :
    (lin_verify_protected_id 0x2A).1 = 0x2A &&& 0x3F ∧
      ((lin_verify_protected_id 0x2A).2 = true ↔
        lin_get_protected_id (0x2A &&& 0x3F) &&& 0xC0 = 0x2A &&& 0xC0) ∧
      lin_verify_protected_id (lin_get_protected_id 0x2A) = (0x2A &&& 0x3F, true) :=
  C9_decode_roundtrip 0x2A (by decide)

/-- C10: classic mode is enhanced mode with a zero seed, for calculation and
for verification, since both families call the same core routine. -/
theorem C10_classic_is_enhanced_zero (data : List Nat) (n c : Nat) :
    lin_calculate_checksum_enhanced 0 data n = lin_calculate_checksum_classic data n ∧
    lin_verify_checksum_enhanced c 0 data n = lin_verify_checksum_classic c data n :=
  ⟨rfl, rfl⟩

end LinChecksum
